import Mathlib

/-!
Verification of the `lantern-go` proof-of-concept peer-to-peer
censorship-circumvention overlay against its natural-language specification.

The development shallowly embeds the Go sources:

* Go strings and byte slices are modelled as `List Nat` with every element
  below 256 (a Go string is an arbitrary byte sequence; `[]byte(s)` and
  `string(b)` are exact mutual inverses, so one byte-list type serves both).
* External library calls (crypto/rsa, encoding/base64) are modelled by
  faithful executable reimplementations of the algorithms those libraries
  document and implement.
* Channel-driven state machines (the signaling dispatch loop, the config
  saver goroutine) are modelled as explicit step functions over state types,
  with channel sends represented as events.
* Randomness (RSA PKCS#1 v1.5 padding bytes, clocks) is passed explicitly.
-/

namespace Lantern

/-- Go strings / byte slices: a list of byte values (each `< 256` whenever it
originates from real Go data; theorems carry that bound as a hypothesis). -/
abbrev GoStr := List Nat

/-- Byte-list view of a Lean string literal, used to transcribe the string
literals appearing in the Go sources. -/
def goStr (s : String) : GoStr := s.data.map Char.toNat

/-- All bytes of a `GoStr` are genuine bytes. -/
def ByteOk (s : GoStr) : Prop := ∀ b ∈ s, b < 256

instance : DecidablePred ByteOk := fun s =>
  inferInstanceAs (Decidable (∀ b ∈ s, b < 256))

instance {α β : Type} [DecidableEq α] [DecidableEq β] : DecidableEq (Except α β) := by
  intro a b
  cases a <;> cases b
  case error.error x y =>
    exact if h : x = y then .isTrue (by rw [h]) else .isFalse (by intro hc; cases hc; exact h rfl)
  case error.ok x y => exact .isFalse (by intro hc; cases hc)
  case ok.error x y => exact .isFalse (by intro hc; cases hc)
  case ok.ok x y =>
    exact if h : x = y then .isTrue (by rw [h]) else .isFalse (by intro hc; cases hc; exact h rfl)

/-! ### Big-endian byte/number conversions

`crypto/rsa` converts between byte slices and big integers big-endian
(`new(big.Int).SetBytes` / `leftPad(i.Bytes(), k)`). -/

/-- Big-endian interpretation of a byte list as a natural number
(`big.Int.SetBytes`). -/
def bytesToNat (bs : List Nat) : Nat := bs.foldl (fun acc b => acc * 256 + b) 0

/-- Big-endian `k`-byte encoding of a natural number
(`leftPad(i.Bytes(), k)` in `crypto/rsa`). -/
def natToBytes : Nat → Nat → List Nat
  | 0, _ => []
  | k + 1, n => natToBytes k (n / 256) ++ [n % 256]

/-- Number of bytes in the big-endian encoding of a modulus:
`(n.BitLen() + 7) / 8` in `crypto/rsa`, computed here by repeated division
(the fuel argument only bounds the recursion; it is never exhausted for
`n < 256 ^ fuel`). -/
def byteLenAux : Nat → Nat → Nat
  | 0, _ => 0
  | f + 1, n => if n = 0 then 0 else byteLenAux f (n / 256) + 1

/-- Byte length of a natural number; fuel 4096 covers every modulus up to
32768 bits, far beyond the 2048-bit keys the program generates. -/
def byteLen (n : Nat) : Nat := byteLenAux 4096 n

/-! ### Modular exponentiation

`crypto/rsa` computes `c = m^e mod n` and `m = c^d mod n` via `big.Int.Exp`.
We model it by square-and-multiply; the fuel argument (the exponent itself)
bounds the halving recursion and is never exhausted. -/

def powModAux (n : Nat) (f : Nat) : Nat → Nat → Nat → Nat :=
  Nat.rec (motive := fun _ => Nat → Nat → Nat → Nat)
    (fun acc _ _ => acc % n)
    (fun _ ih acc b e =>
      if e = 0 then acc % n
      else ih (if e % 2 = 1 then acc * b % n else acc) (b * b % n) (e / 2))
    f

/-- `powMod b e n = b ^ e % n`, computed by square-and-multiply
(`big.Int.Exp`). -/
def powMod (b e n : Nat) : Nat := powModAux n e 1 b e

/-! ### Base64 (Go `encoding/base64.StdEncoding`)

The standard alphabet with `=` padding, RFC 4648. `EncodeToString` maps
each 3-byte group to 4 alphabet characters; `DecodeString` inverts and
fails on characters outside the alphabet or a malformed final quantum. -/

/-- The RFC 4648 standard base64 alphabet, as ASCII byte values. -/
def b64alphabet : List Nat :=
  goStr "ABCDEFGHIJKLMNOPQRSTUVWXYZabcdefghijklmnopqrstuvwxyz0123456789+/"

/-- ASCII code of the base64 character for a sextet value. -/
def b64chr (s : Nat) : Nat := b64alphabet.getD s 0

/-- ASCII code of the base64 padding character `=`. -/
def b64pad : Nat := 61

def sextetOfAux : Nat → List Nat → Nat → Option Nat
  | _, [], _ => none
  | c, x :: xs, i => if x = c then some i else sextetOfAux c xs (i + 1)

/-- Invert `b64chr`: the sextet value of an alphabet character, `none` for
characters outside the alphabet (in particular for `=`). -/
def sextetOf (c : Nat) : Option Nat := sextetOfAux c b64alphabet 0

/-- Go `base64.StdEncoding.EncodeToString` on a byte list, producing the
ASCII codes of the base64 text. -/
def b64encode : List Nat → List Nat
  | [] => []
  | [a] => [b64chr (a / 4), b64chr (a % 4 * 16), b64pad, b64pad]
  | [a, b] => [b64chr (a / 4), b64chr (a % 4 * 16 + b / 16), b64chr (b % 16 * 4), b64pad]
  | a :: b :: c :: rest =>
    b64chr (a / 4) :: b64chr (a % 4 * 16 + b / 16) :: b64chr (b % 16 * 4 + c / 64) ::
      b64chr (c % 64) :: b64encode rest

/-- Go `base64.StdEncoding.DecodeString`: processes 4-character quanta,
accepts padding only in the final quantum, returns `none` on any malformed
input (Go returns `CorruptInputError`). -/
def b64decode : List Nat → Option (List Nat)
  | [] => some []
  | c1 :: c2 :: c3 :: c4 :: rest =>
    match sextetOf c1, sextetOf c2 with
    | some s1, some s2 =>
      if c3 = b64pad then
        if c4 = b64pad ∧ rest = [] then some [s1 * 4 + s2 / 16] else none
      else
        match sextetOf c3 with
        | some s3 =>
          if c4 = b64pad then
            if rest = [] then some [s1 * 4 + s2 / 16, s2 % 16 * 16 + s3 / 4] else none
          else
            match sextetOf c4 with
            | some s4 =>
              (b64decode rest).map fun tl =>
                (s1 * 4 + s2 / 16) :: (s2 % 16 * 16 + s3 / 4) :: (s3 % 4 * 64 + s4) :: tl
            | none => none
        | none => none
    | _, _ => none
  | _ => none

/-! ## Package `lantern/keys` (`keys.go`, `certgen.go`) -/

namespace Keys

/-- An RSA private key as `crypto/rsa` holds it: public modulus `n`, public
exponent `e`, private exponent `d`. -/
structure RSAPrivateKey where
  n : Nat
  e : Nat
  d : Nat
deriving DecidableEq, Repr

/-- Go `rsa.EncryptPKCS1v15(rand, pub, msg)`. The random nonzero padding
bytes `ps` are passed explicitly (the caller of the model supplies the
randomness); `crypto/rsa` draws exactly `k - len(msg) - 3` nonzero bytes.
Fails when the message exceeds the key's block capacity (`len(msg) > k-11`). -/
def encryptPKCS1v15 (pubN pubE : Nat) (ps msg : List Nat) : Except GoStr (List Nat) :=
  let k := byteLen pubN
  if msg.length + 11 > k then
    .error (goStr "crypto/rsa: message too long for RSA public key size")
  else
    let em := 0 :: 2 :: (ps ++ 0 :: msg)
    .ok (natToBytes k (powMod (bytesToNat em) pubE pubN))

/-- Index of the first zero byte, mirroring the scan loop in
`rsa.DecryptPKCS1v15` that looks for the `00` separating `PS` from the
message. -/
def firstZeroIdx : List Nat → Option Nat
  | [] => none
  | b :: rest => if b = 0 then some 0 else (firstZeroIdx rest).map (· + 1)

/-- Go `rsa.DecryptPKCS1v15(rand, priv, ciphertext)`: decrypt
`m = c ^ d mod n`, left-pad to `k` bytes, check the `00 02 PS 00 M`
structure with `PS` at least 8 bytes, return `M`. -/
def decryptPKCS1v15 (key : RSAPrivateKey) (c : List Nat) : Except GoStr (List Nat) :=
  let k := byteLen key.n
  if k < 11 then .error (goStr "crypto/rsa: decryption error")
  else
    let cnum := bytesToNat c
    if cnum > key.n then .error (goStr "crypto/rsa: decryption error")
    else
      match natToBytes k (powMod cnum key.d key.n) with
      | b0 :: b1 :: rest =>
        if b0 = 0 ∧ b1 = 2 then
          match firstZeroIdx rest with
          | some i =>
            if 8 ≤ i then .ok (rest.drop (i + 1))
            else .error (goStr "crypto/rsa: decryption error")
          | none => .error (goStr "crypto/rsa: decryption error")
        else .error (goStr "crypto/rsa: decryption error")
      | _ => .error (goStr "crypto/rsa: decryption error")

/-- `keys.Encrypt`: RSA-PKCS#1-v1.5-encrypt the value under the node's own
public key (`privateKey.PublicKey`), then base64-encode. -/
def Encrypt (key : RSAPrivateKey) (ps : List Nat) (value : GoStr) : Except GoStr GoStr :=
  match encryptPKCS1v15 key.n key.e ps value with
  | .error err => .error err
  | .ok bs => .ok (b64encode bs)

/-- `keys.Decrypt`: base64-decode, then RSA-decrypt under the node's own
private key. -/
def Decrypt (key : RSAPrivateKey) (value : GoStr) : Except GoStr GoStr :=
  match b64decode value with
  | none => .error (goStr "illegal base64 data")
  | some bs => decryptPKCS1v15 key bs

/-- `ONE_WEEK = 7 * 24 * time.Hour`, in nanoseconds (Go `time.Duration`). -/
def ONE_WEEK : Int := 7 * 24 * 3600 * 1000000000

/-- `TWO_WEEKS = ONE_WEEK * 2`. -/
def TWO_WEEKS : Int := ONE_WEEK * 2

/-- The certificate contents assembled by `certificateForPublicKey`:
the fields of the `x509.Certificate` template (and the public key bound
into it).  The model treats this structure as the DER payload
`x509.CreateCertificate` would serialize. -/
structure LanternCert where
  serialNumber : Int
  organization : List GoStr
  commonName : GoStr
  notBefore : Int
  notAfter : Int
  keyUsageKeyEncipherment : Bool
  keyUsageDigitalSignature : Bool
  keyUsageCertSign : Bool
  extKeyUsageServerAuth : Bool
  basicConstraintsValid : Bool
  isCA : Bool
  ipAddresses : List GoStr
  pubN : Nat
  pubE : Nat
deriving DecidableEq, Repr

/-- The package-level mutable state of `lantern/keys` that
`certificateForPublicKey` reads: our private key and our certificate slot
(`nil` before `initCertificate` completes on a root node). -/
structure KeysState where
  key : RSAPrivateKey
  certificate : Option LanternCert
deriving DecidableEq, Repr

/-- `keys.certificateForPublicKey(email, publicKey)`.  Clock reads are
explicit: `nowNs` is the `time.Now()` used for the validity window and
`serialNanos` the `time.Now().Nanosecond()` used for the serial number.
When the node has no certificate of its own it self-signs and binds the
loopback IP SAN. -/
def certificateForPublicKey (st : KeysState) (ps : List Nat) (nowNs serialNanos : Int)
    (email : GoStr) (pubN pubE : Nat) : Except GoStr LanternCert :=
  match Encrypt st.key ps email with
  | .error err => .error err
  | .ok encryptedEmail =>
    .ok {
      serialNumber := serialNanos
      organization := [goStr "Lantern Network"]
      commonName := encryptedEmail
      notBefore := nowNs - ONE_WEEK
      notAfter := nowNs + TWO_WEEKS
      keyUsageKeyEncipherment := true
      keyUsageDigitalSignature := true
      keyUsageCertSign := true
      extKeyUsageServerAuth := true
      basicConstraintsValid := true
      isCA := true
      ipAddresses := if st.certificate.isNone then [goStr "127.0.0.1"] else []
      pubN := pubN
      pubE := pubE }

/-- Outcome of `x509.ParsePKIXPublicKey` on the request body (parsing DER
is external-library work; the model receives its outcome): an RSA key, a
key of another type, or a parse failure. -/
inductive ParsedKey where
  | rsa (n e : Nat)
  | other (typeName : GoStr)
  | malformed (err : GoStr)
deriving DecidableEq, Repr

/-- `keys.certificateForBytes(email, publicKeyBytes)`: parse the PKIX key
and dispatch on its type (only `*rsa.PublicKey` is supported). -/
def certificateForBytes (st : KeysState) (ps : List Nat) (nowNs serialNanos : Int)
    (email : GoStr) (pk : ParsedKey) : Except GoStr LanternCert :=
  match pk with
  | .malformed err => .error err
  | .other typeName => .error (goStr "Unsupported key type: " ++ typeName)
  | .rsa n e => certificateForPublicKey st ps nowNs serialNanos email n e

end Keys

/-! ## Package `lantern/persona` (`persona.go`) -/

namespace Persona

/-- `persona.PersonaResponse`: the JSON document the Mozilla Persona
verifier returns. -/
structure PersonaResponse where
  status : GoStr
  email : GoStr
  audience : GoStr
  expires : Int
  issuer : GoStr
deriving DecidableEq, Repr

/-- `persona.ValidateAssertion(assertion)`.  The HTTP POST to the verifier,
the body read and the JSON unmarshal are external I/O; the model receives
their combined outcome (`.error` on transport/read/parse failure, `.ok pr`
on any well-formed JSON document).  Faithful to the source: the function
returns the parsed response as-is and never inspects `pr.Status` — a
verifier verdict with a non-"okay" status is NOT reported as an error. -/
def ValidateAssertion (verifierResult : Except GoStr PersonaResponse) :
    Except GoStr PersonaResponse :=
  verifierResult

end Persona

namespace Keys

/-- A `POST /mycert` request as `genCert` observes it: the
`X-Lantern-Identity` header value (`Header.Get` yields `""`, i.e. the empty
byte list, when the header is missing), the outcome of the verifier
round-trip for that assertion, and the outcome of reading and PKIX-parsing
the request body. -/
structure CertRequest where
  identityHeader : GoStr
  verifierResult : Except GoStr Persona.PersonaResponse
  body : Except GoStr ParsedKey
deriving Repr

/-- A piece of an HTTP response body: either message text or the DER bytes
of a certificate (modelled as the certificate value itself). -/
inductive RespChunk where
  | text (s : GoStr)
  | cert (c : LanternCert)
deriving DecidableEq, Repr

/-- The response `genCert` produces: status code, `Content-Type` header (if
set before the header was flushed) and body chunks in write order. -/
structure HttpResponse where
  status : Nat
  contentType : Option GoStr
  body : List RespChunk
deriving DecidableEq, Repr

/-- `keys.genCert(resp, req)`, the parent-side `/mycert` handler.
Mirrors the source control flow: missing header → 400; `ValidateAssertion`
error → 400; body read error → 400; certificate construction error →
`respond(500, …)` — and, the `if` having no `return`, the handler falls
through and writes the nil `certBytes` (zero bytes) after the 500 header,
so no certificate reaches the body and the late `Content-Type` set is
ignored; on success the first `resp.Write` flushes an implicit 200 with
the DER certificate as body. -/
def genCert (st : KeysState) (ps : List Nat) (nowNs serialNanos : Int)
    (req : CertRequest) : HttpResponse :=
  if req.identityHeader = [] then
    { status := 400, contentType := none
      body := [.text (goStr "Request didn't include a X-Lantern-Identity header")] }
  else
    match Persona.ValidateAssertion req.verifierResult with
    | .error _ =>
      { status := 400, contentType := none
        body := [.text (goStr "Identity failed to validate with Mozilla")] }
    | .ok pr =>
      match req.body with
      | .error _ =>
        { status := 400, contentType := none
          body := [.text (goStr "Request didn't include the public key's bytes")] }
      | .ok parsed =>
        match certificateForBytes st ps nowNs serialNanos pr.email parsed with
        | .error err =>
          { status := 500, contentType := none
            body := [.text (goStr "Unable to generate certificate: " ++ err)] }
        | .ok c =>
          { status := 200, contentType := some (goStr "application/octet-stream")
            body := [.cert c] }

end Keys

/-! ## Package `lantern/config` (`config.go`) -/

namespace Config

/-- `config.configData`: the JSON-persisted configuration record. -/
structure ConfigData where
  parentAddress : GoStr
  signalingAddress : GoStr
  localProxyAddress : GoStr
  remoteProxyAddress : GoStr
  uiAddress : GoStr
  email : GoStr
deriving DecidableEq, Repr

/-- The package-level defaults `config` is initialized with. -/
def defaultConfig : ConfigData :=
  { parentAddress := []
    signalingAddress := goStr ":16100"
    localProxyAddress := goStr "127.0.0.1:8080"
    remoteProxyAddress := goStr ":16200"
    uiAddress := goStr "127.0.0.1:16300"
    email := [] }

/-- One call to a `config.Set…` setter: each takes the write lock, updates
its field and submits a snapshot of the whole record via `save()`. -/
inductive ConfigMutation where
  | parentAddress (v : GoStr)
  | signalingAddress (v : GoStr)
  | localProxyAddress (v : GoStr)
  | remoteProxyAddress (v : GoStr)
  | uiAddress (v : GoStr)
  | email (v : GoStr)
deriving DecidableEq, Repr

def applyMutation (c : ConfigData) : ConfigMutation → ConfigData
  | .parentAddress v => { c with parentAddress := v }
  | .signalingAddress v => { c with signalingAddress := v }
  | .localProxyAddress v => { c with localProxyAddress := v }
  | .remoteProxyAddress v => { c with remoteProxyAddress := v }
  | .uiAddress v => { c with uiAddress := v }
  | .email v => { c with email := v }

/-- The snapshots submitted to `saveChannel`, in submission order: each
setter sends `*config` (the record after its own update).  The mutex
serializes the setters, so the queue order is the mutation order. -/
def snapshots (c : ConfigData) : List ConfigMutation → List ConfigData
  | [] => []
  | m :: ms =>
    let c2 := applyMutation c m
    c2 :: snapshots c2 ms

/-- The sequence of `config.json` contents written by the `saver` goroutine,
given the totally-ordered queue of submitted snapshots.  The source's
`saver` body is a bare `select` with no enclosing `for` loop: it receives a
single snapshot from `saveChannel`, writes it, and the goroutine returns.
Every later snapshot stays in the channel forever. -/
def saverWrites : List ConfigData → List ConfigData
  | [] => []
  | c :: _ => [c]

end Config

/-! ## Package `lantern/util` (`set.go`) -/

namespace Util

/-- A Go runtime fault raised by a map operation. -/
inductive MapFault where
  | nilMapAssign
deriving DecidableEq, Repr

/-- `util.StringSet`: a set of strings backed by a Go `map[string]bool`.
The zero value of the struct has a `nil` map (`m = none`). -/
structure StringSet where
  m : Option (List GoStr)
deriving DecidableEq, Repr

/-- `StringSet.Add`: reads `found` (reading a nil map yields the zero
value) and then assigns `set.m[val] = true` — assignment to an entry in a
nil map is a Go runtime panic, modelled as `MapFault.nilMapAssign`. -/
def StringSet.add (set : StringSet) (val : GoStr) : Except MapFault (StringSet × Bool) :=
  match set.m with
  | none => .error .nilMapAssign
  | some entries =>
    let found := val ∈ entries
    .ok (⟨some (if val ∈ entries then entries else entries ++ [val])⟩, !found)

/-- `StringSet.Remove`: `delete` on a nil map is a no-op. -/
def StringSet.remove (set : StringSet) (val : GoStr) : StringSet :=
  match set.m with
  | none => set
  | some entries => ⟨some (entries.filter (fun x => x ≠ val))⟩

/-- `StringSet.Contains`: reading a nil map yields `false`. -/
def StringSet.containsVal (set : StringSet) (val : GoStr) : Bool :=
  match set.m with
  | none => false
  | some entries => val ∈ entries

end Util

/-! ## Package `lantern/signaling`: the server dispatch loop and client
connections (`signaling.go` and the websocket server file)

The dispatch loop of `Server.Listen` owns all server state; every mutation
reaches it as a message on one of the dispatch channels.  The model makes
the loop a step function over an explicit state.

A caveat on the full-queue path: `ClientConnection.Write` is invoked only
from `sendPastMessages` and `sendAll`, which run on the dispatch goroutine
itself, and the `delCh`/`errCh` channels its `default` branch sends on are
unbuffered with that same goroutine as their sole receiver — so those sends
can never be matched and the loop blocks forever (see the C3 theorem and
`loopWrite`).  `step` nevertheless RETURNS the attempted `del`/`err`
submissions as a generated-event list, so that their emptiness can be
stated; every theorem below that folds generated events into the state
(`dispatch`) carries hypotheses under which that list is empty, where the
fold is the identity and the model coincides exactly with the loop. -/

namespace Signaling

/-- `signaling.Message`: recipient email, message type, payload. -/
structure Message where
  R : GoStr
  T : Nat
  D : GoStr
deriving DecidableEq, Repr

/-- `TYPE_REGISTRATION = 1`. -/
def TYPE_REGISTRATION : Nat := 1

/-- `TYPE_DEREGISTRATION = 2`. -/
def TYPE_DEREGISTRATION : Nat := 2

/-- `channelBufSize = 100`: capacity of a client's outbound channel. -/
def channelBufSize : Nat := 100

/-- A `ClientConnection`'s state as the dispatch model tracks it: its id,
the contents of its buffered outbound channel `ch` (capacity
`channelBufSize`), and its subscription set `emails`.  The websocket and
the `doneCh` plumbing carry no dispatch-relevant state. -/
structure ClientConnection where
  id : Nat
  ch : List Message
  emails : Util.StringSet
deriving DecidableEq, Repr

/-- `signaling.NewClientConnection(ws, server)` with `maxId` already
incremented to `id`: the literal initializes `id`, `ws`, `server`, `ch` and
`doneCh` — the `emails` field is never assigned, so it keeps its zero
value, a `StringSet` whose backing map is nil. -/
def NewClientConnection (id : Nat) : ClientConnection :=
  { id := id, ch := [], emails := ⟨none⟩ }

/-- `ClientConnection.Write(msg)`: the nonblocking send. Returns the
updated connection and whether the channel was full (the `default` branch,
which submits `del` and an error to the server). -/
def clientWrite (c : ClientConnection) (msg : Message) : ClientConnection × Bool :=
  if c.ch.length < channelBufSize then ({ c with ch := c.ch ++ [msg] }, false)
  else (c, true)

/-- An error submitted to `Server.Err`. -/
inductive SrvError where
  | disconnected (id : Nat)
  | socket (msg : GoStr)
deriving DecidableEq, Repr

/-- An event arriving on one of the `Server`'s dispatch channels. -/
inductive SEvent where
  | add (c : ClientConnection)
  | del (id : Nat)
  | sendAll (m : Message)
  | errE (e : SrvError)
  | doneE
deriving DecidableEq, Repr

/-- The `Server`'s dispatch-loop state: the replay buffer `messages`, the
registry `clients` (the Go map, modelled as a list with distinct ids) and
the log of errors the loop has consumed. -/
structure ServerState where
  messages : List Message
  clients : List ClientConnection
  errLog : List SrvError
deriving DecidableEq, Repr

/-- `s.clients[c.id] = c`: map insert (replace an existing entry or
append). -/
def putClient (cs : List ClientConnection) (c : ClientConnection) : List ClientConnection :=
  if cs.any (fun x => x.id == c.id) then cs.map (fun x => if x.id == c.id then c else x)
  else cs ++ [c]

/-- Registry lookup by id. -/
def getClient (cs : List ClientConnection) (i : Nat) : Option ClientConnection :=
  cs.find? (fun x => x.id == i)

/-- The submissions a full-channel `Write` attempts: `s.Del(c)` then
`s.Err(fmt.Errorf("ClientConnection %d is disconnected.", c.id))`.  In the
source these sends are issued from the dispatch goroutine itself on
unbuffered channels it alone receives from, so they never complete; the
list only serves to state that no such submission is attempted (it is
empty) under the hypotheses of the theorems below. -/
def overflowEvents (i : Nat) : List SEvent :=
  [.del i, .errE (.disconnected i)]

/-- `Server.sendPastMessages(c)`: replay the buffer to one client via
`c.Write`, in order, collecting the `del`/`err` submissions any
full-channel write attempts (none, under the capacity hypotheses of the
theorems that use this). -/
def sendPastMessages (c : ClientConnection) (msgs : List Message) :
    ClientConnection × List SEvent :=
  msgs.foldl
    (fun acc m =>
      let c2 := clientWrite acc.1 m
      (c2.1, if c2.2 then acc.2 ++ overflowEvents acc.1.id else acc.2))
    (c, [])

/-- One iteration of the dispatch loop in `Server.Listen`, returning the
new state and the `del`/`err` submissions that client `Write`s attempted
during the iteration.  A nonempty second component means the real loop has
in fact blocked on an unmatched channel send (see `loopWrite`); the
theorems below use `step` only where that component is proven empty. -/
def step (s : ServerState) : SEvent → ServerState × List SEvent
  | .add c =>
    let r := sendPastMessages c s.messages
    ({ s with clients := putClient s.clients r.1 }, r.2)
  | .del i =>
    ({ s with clients := s.clients.filter (fun x => x.id != i) }, [])
  | .sendAll m =>
    let cs2 := s.clients.map (fun c => (clientWrite c m).1)
    let gen := (s.clients.filter (fun c => (clientWrite c m).2)).flatMap
      (fun c => overflowEvents c.id)
    ({ s with messages := s.messages ++ [m], clients := cs2 }, gen)
  | .errE err => ({ s with errLog := s.errLog ++ [err] }, [])
  | .doneE => (s, [])

/-- Process one dispatch event and then fold in the events it generated.
Exact for the loop semantics exactly when the generated list is empty (the
fold is then the identity); every theorem stated through `dispatch` carries
capacity hypotheses that force this.  With a nonempty generated list the
fold is counterfactual — the source loop would instead block forever on the
unmatched send (see `loopWrite` and the C3 theorem). -/
def dispatch (s : ServerState) (ev : SEvent) : ServerState :=
  let r := step s ev
  r.2.foldl (fun t g => (step t g).1) r.1

/-- How a single `c.Write(msg)` ends when the dispatch goroutine executes
it (its only call sites, `sendPastMessages` and `sendAll`, both run inside
the `Server.Listen` loop). -/
inductive LoopPushResult where
  /-- The fast path of the `select`: the message entered the buffered
  channel and the loop continues. -/
  | done (c : ClientConnection)
  /-- The `default` branch: the channel is full, so `Write` executes
  `c.server.Del(c)` — a send on the unbuffered `delCh` whose only receiver
  is this very goroutine, currently inside a `select` case.  The send can
  never be matched: the loop blocks forever, the connection is never
  removed from the registry, the error is never logged, and no further
  fan-out happens. -/
  | deadlock
deriving DecidableEq, Repr

/-- `c.Write(msg)` as the dispatch goroutine actually executes it: enqueue
when there is room; on a full channel, the `default` branch self-deadlocks
on `s.delCh <- c` (see `LoopPushResult.deadlock`). -/
def loopWrite (c : ClientConnection) (msg : Message) : LoopPushResult :=
  let r := clientWrite c msg
  if r.2 then .deadlock else .done r.1

/-- The message dispatch in `ClientConnection.listenRead` once
`websocket.JSON.Receive` yields a message: `REGISTRATION` adds to the
subscription set (a runtime fault on the nil map of a fresh connection),
`DEREGISTRATION` removes, anything else is submitted to `Server.SendAll`. -/
def processInbound (c : ClientConnection) (msg : Message) :
    Except Util.MapFault (ClientConnection × List SEvent) :=
  if msg.T = TYPE_REGISTRATION then
    match c.emails.add msg.D with
    | .error f => .error f
    | .ok r => .ok ({ c with emails := r.1 }, [])
  else if msg.T = TYPE_DEREGISTRATION then
    .ok ({ c with emails := c.emails.remove msg.D }, [])
  else
    .ok (c, [.sendAll msg])

end Signaling

/-! ## Package `lantern/proxy` (`local.go`, `remote.go`) -/

namespace Proxy

/-- `proxy.hostIncludingPort(req)`: `req.Host`, with `:443` appended for
CONNECT and `:80` otherwise when the host contains no `:` (ASCII 58). -/
def hostIncludingPort (method host : GoStr) : GoStr :=
  if host.contains 58 then host
  else if method = goStr "CONNECT" then host ++ goStr ":443"
  else host ++ goStr ":80"

/-- How a run of `handleLocalRequest` ends. -/
inductive LocalProxyOutcome where
  | fault (msg : GoStr)
  | badGateway (msg : GoStr)
  | spliced (upstream : GoStr)
deriving DecidableEq, Repr

/-- Result of `handleLocalRequest`: the outcome plus the list of upstream
addresses the handler attempted to dial. -/
structure LocalProxyResult where
  outcome : LocalProxyOutcome
  dialed : List GoStr
deriving DecidableEq, Repr

/-- Status code of the HTTP response a local-proxy outcome writes, if any
(`respondBadGateway` — referenced by the handlers but defined outside the
provided sources; modelled from the spec: 502 Bad Gateway with the
descriptive message as body). A runtime fault aborts the handler without a
response, and a successful splice takes over the raw connection. -/
def localStatus : LocalProxyOutcome → Option Nat
  | .badGateway _ => some 502
  | .fault _ => none
  | .spliced _ => none

/-- `proxy.handleLocalRequest(resp, req)` from `local.go`.  The dial and
hijack are network operations; the model receives their outcomes as
functions/values.  The source takes `config.StaticProxyAddresses()[0]`
unconditionally: on an empty slice this is a Go runtime panic
(index out of range), before any response is written and before any
upstream is contacted. -/
def handleLocalRequest (staticProxyAddresses : List GoStr)
    (dial : GoStr → Except GoStr Unit) (hijack : Except GoStr Unit) : LocalProxyResult :=
  match staticProxyAddresses with
  | [] => ⟨.fault (goStr "runtime error: index out of range"), []⟩
  | upstream :: _ =>
    match dial upstream with
    | .error err =>
      ⟨.badGateway (goStr "Unable to open socket to upstream proxy: " ++ err), [upstream]⟩
    | .ok _ =>
      match hijack with
      | .error err =>
        ⟨.badGateway (goStr "Unable to access underlying connection from client: " ++ err),
          [upstream]⟩
      | .ok _ => ⟨.spliced upstream, [upstream]⟩

end Proxy

/-! ## Concrete instances used by the witnesses -/

namespace Keys

/-- A concrete RSA key pair with a 128-bit modulus (product of two primes,
`e * d ≡ 1 (mod φ(n))`), used to instantiate the round-trip theorems on
hardware-checkable sizes. -/
def testKey : RSAPrivateKey :=
  { n := 264895143418780405808843459884361007073
    e := 3
    d := 176596762279186937184194761597643081899 }

/-- A public modulus used where only encryption occurs (no inversion is
ever performed under it): exactly 11 bytes long, so even the empty string
fits its PKCS#1 v1.5 block. -/
def encOnlyKey : RSAPrivateKey := { n := 256 ^ 10, e := 3, d := 1 }

/-- A concrete verifier verdict approving the email "a@b.c". -/
def approvedPr : Persona.PersonaResponse :=
  { status := goStr "okay", email := goStr "a@b.c", audience := goStr "a"
    expires := 0, issuer := goStr "login.persona.org" }

/-- A concrete well-formed `/mycert` request carrying `approvedPr`. -/
def approvedReq : CertRequest :=
  { identityHeader := goStr "assertion-token"
    verifierResult := .ok approvedPr
    body := .ok (.rsa 3233 17) }

/-- A verifier verdict that REJECTS the assertion (status "failure"). -/
def deniedPr : Persona.PersonaResponse :=
  { status := goStr "failure", email := [], audience := [], expires := 0
    issuer := [] }

/-- A `/mycert` request whose assertion the verifier rejected. -/
def deniedReq : CertRequest :=
  { identityHeader := goStr "assertion-token"
    verifierResult := .ok deniedPr
    body := .ok (.rsa 3233 17) }

/-- A verifier verdict whose email does not fit the 11-byte block of
`encOnlyKey`, forcing certificate construction to fail. -/
def tooLongPr : Persona.PersonaResponse :=
  { status := goStr "okay", email := goStr "user@example.org", audience := []
    expires := 0, issuer := [] }

/-- A `/mycert` request carrying `tooLongPr`. -/
def tooLongReq : CertRequest :=
  { identityHeader := goStr "assertion-token"
    verifierResult := .ok tooLongPr
    body := .ok (.rsa 3233 17) }

end Keys

end Lantern

/-! # Theorems -/

namespace Lantern

/-! ## Arithmetic toolkit: `powMod`, `bytesToNat`, `natToBytes` -/

theorem powModAux_zero (n acc b e : Nat) : powModAux n 0 acc b e = acc % n := rfl

theorem powModAux_succ (n f acc b e : Nat) :
    powModAux n (f + 1) acc b e =
      if e = 0 then acc % n
      else powModAux n f (if e % 2 = 1 then acc * b % n else acc) (b * b % n) (e / 2) := rfl

theorem powModAux_eq (n : Nat) :
    ∀ f acc b e, e ≤ f → powModAux n f acc b e = acc * b ^ e % n := by
  intro f
  induction f with
  | zero =>
    intro acc b e he
    interval_cases e
    simp [powModAux_zero]
  | succ f ih =>
    intro acc b e he
    rw [powModAux_succ]
    by_cases he0 : e = 0
    · simp [he0]
    · rw [if_neg he0, ih _ _ _ (by omega)]
      have hpow : (b * b) ^ (e / 2) = b ^ (2 * (e / 2)) := by
        rw [← pow_two, ← pow_mul]
      by_cases hodd : e % 2 = 1
      · rw [if_pos hodd]
        have key : acc * b % n * (b * b % n) ^ (e / 2) ≡ acc * b ^ e [MOD n] := by
          calc acc * b % n * (b * b % n) ^ (e / 2)
              ≡ acc * b * (b * b) ^ (e / 2) [MOD n] :=
                Nat.ModEq.mul (Nat.mod_modEq _ n) (Nat.ModEq.pow _ (Nat.mod_modEq _ n))
            _ = acc * b ^ e := by
                rw [hpow, mul_assoc]
                have hb : b * b ^ (2 * (e / 2)) = b ^ e := by
                  rw [← pow_succ']
                  congr 1
                  omega
                rw [hb]
        exact key
      · rw [if_neg hodd]
        have key : acc * (b * b % n) ^ (e / 2) ≡ acc * b ^ e [MOD n] := by
          calc acc * (b * b % n) ^ (e / 2)
              ≡ acc * (b * b) ^ (e / 2) [MOD n] :=
                Nat.ModEq.mul (Nat.ModEq.refl acc) (Nat.ModEq.pow _ (Nat.mod_modEq _ n))
            _ = acc * b ^ e := by
                rw [hpow]
                have hx : 2 * (e / 2) = e := by omega
                rw [hx]
        exact key

theorem powMod_eq (b e n : Nat) : powMod b e n = b ^ e % n := by
  rw [powMod, powModAux_eq n e 1 b e (le_refl e), one_mul]

theorem bytesToNat_foldl (bs : List Nat) :
    ∀ acc, bs.foldl (fun a b => a * 256 + b) acc = acc * 256 ^ bs.length + bytesToNat bs := by
  induction bs with
  | nil => intro acc; simp [bytesToNat]
  | cons b bs ih =>
    intro acc
    show bs.foldl _ (acc * 256 + b) = _
    rw [ih (acc * 256 + b)]
    have hb : bytesToNat (b :: bs) = b * 256 ^ bs.length + bytesToNat bs := by
      show bs.foldl _ (0 * 256 + b) = _
      rw [ih (0 * 256 + b)]
      ring
    rw [hb]
    simp [List.length_cons]
    ring

theorem bytesToNat_cons (b : Nat) (bs : List Nat) :
    bytesToNat (b :: bs) = b * 256 ^ bs.length + bytesToNat bs := by
  show bs.foldl _ (0 * 256 + b) = _
  rw [bytesToNat_foldl]
  ring

theorem bytesToNat_append_singleton (bs : List Nat) (b : Nat) :
    bytesToNat (bs ++ [b]) = bytesToNat bs * 256 + b := by
  unfold bytesToNat
  rw [List.foldl_append]
  rfl

theorem bytesToNat_lt (bs : List Nat) (h : ByteOk bs) : bytesToNat bs < 256 ^ bs.length := by
  induction bs with
  | nil => simp [bytesToNat]
  | cons b bs ih =>
    rw [bytesToNat_cons]
    have hb : b < 256 := h b (List.mem_cons_self b bs)
    have hbs : bytesToNat bs < 256 ^ bs.length := ih (fun x hx => h x (List.mem_cons_of_mem b hx))
    calc b * 256 ^ bs.length + bytesToNat bs
        < b * 256 ^ bs.length + 256 ^ bs.length := by omega
      _ = (b + 1) * 256 ^ bs.length := by ring
      _ ≤ 256 * 256 ^ bs.length := Nat.mul_le_mul_right _ (by omega)
      _ = 256 ^ (b :: bs).length := by rw [List.length_cons]; ring

theorem natToBytes_length (k n : Nat) : (natToBytes k n).length = k := by
  induction k generalizing n with
  | zero => rfl
  | succ k ih => simp [natToBytes, ih]

theorem natToBytes_byteOk (k n : Nat) : ByteOk (natToBytes k n) := by
  induction k generalizing n with
  | zero => intro b hb; simp [natToBytes] at hb
  | succ k ih =>
    intro b hb
    simp only [natToBytes, List.mem_append, List.mem_singleton] at hb
    rcases hb with hb | hb
    · exact ih (n / 256) b hb
    · subst hb; exact Nat.mod_lt _ (by omega)

theorem bytesToNat_natToBytes (k n : Nat) (h : n < 256 ^ k) :
    bytesToNat (natToBytes k n) = n := by
  induction k generalizing n with
  | zero =>
    interval_cases n
    rfl
  | succ k ih =>
    show bytesToNat (natToBytes k (n / 256) ++ [n % 256]) = n
    rw [bytesToNat_append_singleton, ih (n / 256) (by
      rw [Nat.div_lt_iff_lt_mul (by omega)]
      calc n < 256 ^ (k + 1) := h
        _ = 256 ^ k * 256 := by ring)]
    omega

theorem sextetOf_b64chr : ∀ s, s < 64 → sextetOf (b64chr s) = some s := by decide

theorem b64chr_ne_pad : ∀ s, s < 64 → b64chr s ≠ b64pad := by decide

theorem b64chr_lt_256 : ∀ s, s < 64 → b64chr s < 256 := by decide

theorem b64encode_byteOk (bs : List Nat) (h : ByteOk bs) : ByteOk (b64encode bs) := by
  match bs with
  | [] => intro x hx; simp [b64encode] at hx
  | [a] =>
    have ha : a < 256 := h a (by simp)
    intro x hx
    simp only [b64encode, List.mem_cons, List.not_mem_nil, or_false] at hx
    rcases hx with hx | hx | hx | hx <;> subst hx
    · exact b64chr_lt_256 _ (by omega)
    · exact b64chr_lt_256 _ (by omega)
    · norm_num [b64pad]
    · norm_num [b64pad]
  | [a, b] =>
    have ha : a < 256 := h a (by simp)
    have hb : b < 256 := h b (by simp)
    intro x hx
    simp only [b64encode, List.mem_cons, List.not_mem_nil, or_false] at hx
    rcases hx with hx | hx | hx | hx <;> subst hx
    · exact b64chr_lt_256 _ (by omega)
    · exact b64chr_lt_256 _ (by omega)
    · exact b64chr_lt_256 _ (by omega)
    · norm_num [b64pad]
  | a :: b :: c :: rest =>
    have ha : a < 256 := h a (by simp)
    have hb : b < 256 := h b (by simp)
    have hc : c < 256 := h c (by simp)
    have hrest : ByteOk rest := fun x hx => h x (by simp [hx])
    intro x hx
    simp only [b64encode, List.mem_cons] at hx
    rcases hx with hx | hx | hx | hx | hx
    · subst hx; exact b64chr_lt_256 _ (by omega)
    · subst hx; exact b64chr_lt_256 _ (by omega)
    · subst hx; exact b64chr_lt_256 _ (by omega)
    · subst hx; exact b64chr_lt_256 _ (by omega)
    · exact b64encode_byteOk rest hrest x hx

theorem b64decode_b64encode (bs : List Nat) (h : ByteOk bs) :
    b64decode (b64encode bs) = some bs := by
  match bs with
  | [] => rfl
  | [a] =>
    have ha : a < 256 := h a (by simp)
    have h1 : sextetOf (b64chr (a / 4)) = some (a / 4) := sextetOf_b64chr (a / 4) (by omega)
    have h2 : sextetOf (b64chr (a % 4 * 16)) = some (a % 4 * 16) :=
      sextetOf_b64chr (a % 4 * 16) (by omega)
    have hval : a / 4 * 4 + a % 4 * 16 / 16 = a := by omega
    show b64decode [b64chr (a / 4), b64chr (a % 4 * 16), b64pad, b64pad] = some [a]
    simp only [b64decode, h1, h2]
    simp
    all_goals omega
  | [a, b] =>
    have ha : a < 256 := h a (by simp)
    have hb : b < 256 := h b (by simp)
    have h1 : sextetOf (b64chr (a / 4)) = some (a / 4) := sextetOf_b64chr (a / 4) (by omega)
    have h2 : sextetOf (b64chr (a % 4 * 16 + b / 16)) = some (a % 4 * 16 + b / 16) :=
      sextetOf_b64chr (a % 4 * 16 + b / 16) (by omega)
    have h3 : sextetOf (b64chr (b % 16 * 4)) = some (b % 16 * 4) :=
      sextetOf_b64chr (b % 16 * 4) (by omega)
    have hne3 : b64chr (b % 16 * 4) ≠ b64pad := b64chr_ne_pad (b % 16 * 4) (by omega)
    have hva : a / 4 * 4 + (a % 4 * 16 + b / 16) / 16 = a := by omega
    have hvb : (a % 4 * 16 + b / 16) % 16 * 16 + b % 16 * 4 / 4 = b := by omega
    show b64decode [b64chr (a / 4), b64chr (a % 4 * 16 + b / 16), b64chr (b % 16 * 4), b64pad]
      = some [a, b]
    simp only [b64decode, h1, h2, h3]
    simp [hne3]
    all_goals omega
  | a :: b :: c :: rest =>
    have ha : a < 256 := h a (by simp)
    have hb : b < 256 := h b (by simp)
    have hc : c < 256 := h c (by simp)
    have hrest : ByteOk rest := fun x hx => h x (by simp [hx])
    have h1 : sextetOf (b64chr (a / 4)) = some (a / 4) := sextetOf_b64chr (a / 4) (by omega)
    have h2 : sextetOf (b64chr (a % 4 * 16 + b / 16)) = some (a % 4 * 16 + b / 16) :=
      sextetOf_b64chr (a % 4 * 16 + b / 16) (by omega)
    have h3 : sextetOf (b64chr (b % 16 * 4 + c / 64)) = some (b % 16 * 4 + c / 64) :=
      sextetOf_b64chr (b % 16 * 4 + c / 64) (by omega)
    have h4 : sextetOf (b64chr (c % 64)) = some (c % 64) := sextetOf_b64chr (c % 64) (by omega)
    have hne3 : b64chr (b % 16 * 4 + c / 64) ≠ b64pad :=
      b64chr_ne_pad (b % 16 * 4 + c / 64) (by omega)
    have hne4 : b64chr (c % 64) ≠ b64pad := b64chr_ne_pad (c % 64) (by omega)
    have hrec : b64decode (b64encode rest) = some rest := b64decode_b64encode rest hrest
    have hva : a / 4 * 4 + (a % 4 * 16 + b / 16) / 16 = a := by omega
    have hvb : (a % 4 * 16 + b / 16) % 16 * 16 + (b % 16 * 4 + c / 64) / 4 = b := by omega
    have hvc : (b % 16 * 4 + c / 64) % 4 * 64 + c % 64 = c := by omega
    show b64decode (b64chr (a / 4) :: b64chr (a % 4 * 16 + b / 16) ::
      b64chr (b % 16 * 4 + c / 64) :: b64chr (c % 64) :: b64encode rest) = some (a :: b :: c :: rest)
    simp only [b64decode, h1, h2, h3, h4, hrec]
    simp [hne3, hne4]
    all_goals omega

theorem natToBytes_bytesToNat (bs : List Nat) (h : ByteOk bs) :
    natToBytes bs.length (bytesToNat bs) = bs := by
  induction bs using List.reverseRecOn with
  | nil => rfl
  | append_singleton xs b ih =>
    have hxs : ByteOk xs := fun x hx => h x (List.mem_append_left _ hx)
    have hb : b < 256 := h b (List.mem_append_right _ (List.mem_singleton_self b))
    rw [bytesToNat_append_singleton]
    have hlen : (xs ++ [b]).length = xs.length + 1 := by simp
    rw [hlen]
    show natToBytes xs.length ((bytesToNat xs * 256 + b) / 256) ++
      [(bytesToNat xs * 256 + b) % 256] = xs ++ [b]
    have hdiv : (bytesToNat xs * 256 + b) / 256 = bytesToNat xs := by omega
    have hmod : (bytesToNat xs * 256 + b) % 256 = b := by omega
    rw [hdiv, hmod, ih hxs]


namespace Keys

theorem firstZeroIdx_ps (ps msg : List Nat) (h : ∀ b ∈ ps, b ≠ 0) :
    firstZeroIdx (ps ++ 0 :: msg) = some ps.length := by
  induction ps with
  | nil => simp [firstZeroIdx]
  | cons p ps ih =>
    have hp : p ≠ 0 := h p (List.mem_cons_self p ps)
    have hps : ∀ b ∈ ps, b ≠ 0 := fun b hb => h b (List.mem_cons_of_mem p hb)
    simp [firstZeroIdx, hp, ih hps]

theorem drop_ps (ps msg : List Nat) : (ps ++ 0 :: msg).drop (ps.length + 1) = msg := by
  induction ps with
  | nil => simp
  | cons p ps ih => simp [ih]

/-- PKCS#1 v1.5 encrypt-then-decrypt round trip at the `crypto/rsa` level.
The key-correctness hypothesis `hed` states that raising the padded block
to `e * d` modulo `n` gives the block back — the defining property of a
valid RSA key pair on this message. -/
theorem pkcs1v15_roundtrip (key : RSAPrivateKey) (ps msg : List Nat)
    (hmsg : ByteOk msg) (hps : ByteOk ps) (hpsnz : ∀ b ∈ ps, b ≠ 0)
    (hlen : msg.length + 11 ≤ byteLen key.n)
    (hpslen : ps.length = byteLen key.n - msg.length - 3)
    (hlow : 256 ^ (byteLen key.n - 1) ≤ key.n)
    (hhigh : key.n < 256 ^ byteLen key.n)
    (hed : powMod (bytesToNat (0 :: 2 :: (ps ++ 0 :: msg))) (key.e * key.d) key.n
      = bytesToNat (0 :: 2 :: (ps ++ 0 :: msg))) :
    ∃ c, encryptPKCS1v15 key.n key.e ps msg = .ok c ∧ ByteOk c ∧
      decryptPKCS1v15 key c = .ok msg := by
  have hnpos : 0 < key.n := lt_of_lt_of_le (Nat.pos_pow_of_pos _ (by omega)) hlow
  set k := byteLen key.n with hkdef
  set em : List Nat := 0 :: 2 :: (ps ++ 0 :: msg) with hemdef
  have hemlen : em.length = k := by
    simp only [hemdef, List.length_cons, List.length_append]
    omega
  have hemok : ByteOk em := by
    intro b hb
    simp only [hemdef, List.mem_cons, List.mem_append] at hb
    rcases hb with rfl | rfl | hb | rfl | hb
    · omega
    · omega
    · exact hps b hb
    · omega
    · exact hmsg b hb
  have hemlt : bytesToNat em < 256 ^ (k - 1) := by
    have h0 : bytesToNat em = bytesToNat (2 :: (ps ++ 0 :: msg)) := by
      rw [hemdef, bytesToNat_cons]
      simp
    have htl : (2 :: (ps ++ 0 :: msg)).length = k - 1 := by
      have := hemlen
      simp only [hemdef, List.length_cons] at this ⊢
      omega
    have hok2 : ByteOk (2 :: (ps ++ 0 :: msg)) := by
      intro b hb
      rcases List.mem_cons.mp hb with rfl | hb2
      · omega
      · exact hemok b (by rw [hemdef]; exact List.mem_cons_of_mem _ (List.mem_cons_of_mem _ hb2))
    rw [h0, ← htl]
    exact bytesToNat_lt _ hok2
  have hem_lt_n : bytesToNat em < key.n := lt_of_lt_of_le hemlt (by
    calc 256 ^ (k - 1) ≤ key.n := hlow)
  -- the ciphertext
  set c : List Nat := natToBytes k (powMod (bytesToNat em) key.e key.n) with hcdef
  have henc : encryptPKCS1v15 key.n key.e ps msg = .ok c := by
    rw [encryptPKCS1v15]
    rw [if_neg (by omega)]
  have hcok : ByteOk c := natToBytes_byteOk _ _
  have hclen : c.length = k := natToBytes_length _ _
  have hcnum : bytesToNat c = bytesToNat em ^ key.e % key.n := by
    rw [hcdef, bytesToNat_natToBytes, powMod_eq]
    rw [powMod_eq]
    calc bytesToNat em ^ key.e % key.n < key.n := Nat.mod_lt _ hnpos
      _ < 256 ^ k := hhigh
  have hcnum_lt : bytesToNat c ≤ key.n := by
    rw [hcnum]
    exact le_of_lt (Nat.mod_lt _ hnpos)
  -- the decrypted block
  have hm2 : powMod (bytesToNat c) key.d key.n = bytesToNat em := by
    rw [powMod_eq, hcnum, ← Nat.pow_mod, ← pow_mul, ← powMod_eq, hed]
  have hrecover : natToBytes k (powMod (bytesToNat c) key.d key.n) = em := by
    rw [hm2, ← hemlen, natToBytes_bytesToNat em hemok]
  refine ⟨c, henc, hcok, ?_⟩
  have hscan : firstZeroIdx (ps ++ 0 :: msg) = some ps.length := firstZeroIdx_ps ps msg hpsnz
  have hnotsmall : ¬ (byteLen key.n < 11) := by omega
  have hnotbig : ¬ (bytesToNat c > key.n) := by omega
  have h8 : 8 ≤ ps.length := by omega
  simp only [decryptPKCS1v15, hnotsmall, if_false, ← hkdef]
  rw [if_neg hnotbig, hrecover, hemdef]
  simp [hscan, h8, drop_ps]

/-- `Encrypt` then `Decrypt` round trip at the `keys.go` level: base64 and
RSA both invert. -/
theorem Encrypt_Decrypt_ok (key : RSAPrivateKey) (ps msg : List Nat)
    (hmsg : ByteOk msg) (hps : ByteOk ps) (hpsnz : ∀ b ∈ ps, b ≠ 0)
    (hlen : msg.length + 11 ≤ byteLen key.n)
    (hpslen : ps.length = byteLen key.n - msg.length - 3)
    (hlow : 256 ^ (byteLen key.n - 1) ≤ key.n)
    (hhigh : key.n < 256 ^ byteLen key.n)
    (hed : powMod (bytesToNat (0 :: 2 :: (ps ++ 0 :: msg))) (key.e * key.d) key.n
      = bytesToNat (0 :: 2 :: (ps ++ 0 :: msg))) :
    ∃ ct, Encrypt key ps msg = .ok ct ∧ Decrypt key ct = .ok msg := by
  obtain ⟨c, henc, hcok, hdec⟩ :=
    pkcs1v15_roundtrip key ps msg hmsg hps hpsnz hlen hpslen hlow hhigh hed
  refine ⟨b64encode c, ?_, ?_⟩
  · rw [Encrypt, henc]
  · rw [Decrypt, b64decode_b64encode c hcok]
    exact hdec

end Keys


namespace Keys

/-- **C5.** For every UTF-8 string `s` short enough to fit in a single RSA
PKCS#1 v1.5 block for a 2048-bit key (at most `2048/8 - 11 = 245` bytes,
hypothesis `hfits`), `Decrypt (Encrypt s) = s`, where `Encrypt` encrypts
under the node's own public key (PKCS#1 v1.5) and base64-encodes, and
`Decrypt` base64-decodes and decrypts under the node's own private key.
Stated for every key whose block also holds `s` (`hlen`), which in
particular covers all 2048-bit keys; `hlow`/`hhigh` pin `byteLen key.n` as
the key's true byte length, `hps`/`hpsnz`/`hpslen` state the nonzero-
padding contract `crypto/rsa` guarantees for the random filler, and `hed`
is RSA key-pair correctness at the padded block. -/
theorem decrypt_encrypt_roundtrip (key : RSAPrivateKey) (ps s : List Nat)
    (hs : ByteOk s) (_hfits : s.length ≤ 245)
    (hps : ByteOk ps) (hpsnz : ∀ b ∈ ps, b ≠ 0)
    (hlen : s.length + 11 ≤ byteLen key.n)
    (hpslen : ps.length = byteLen key.n - s.length - 3)
    (hlow : 256 ^ (byteLen key.n - 1) ≤ key.n)
    (hhigh : key.n < 256 ^ byteLen key.n)
    (hed : powMod (bytesToNat (0 :: 2 :: (ps ++ 0 :: s))) (key.e * key.d) key.n
      = bytesToNat (0 :: 2 :: (ps ++ 0 :: s))) :
    ∃ ct, Encrypt key ps s = .ok ct ∧ Decrypt key ct = .ok s :=
  Encrypt_Decrypt_ok key ps s hs hps hpsnz hlen hpslen hlow hhigh hed

set_option maxRecDepth 400000 in
/-- Witness for C5: the round trip evaluated on the concrete key
`testKey` and the string "hi". -/
theorem decrypt_encrypt_roundtrip_witness :
    ∃ ct, Encrypt testKey (List.replicate 11 1) (goStr "hi") = .ok ct ∧
      Decrypt testKey ct = .ok (goStr "hi") :=
  decrypt_encrypt_roundtrip testKey (List.replicate 11 1) (goStr "hi")
    (by decide) (by decide) (by decide) (by decide) (by decide) (by decide)
    (by decide) (by decide) (by decide)

/-- **C6.** Every certificate produced by `certificateForPublicKey` has
`NotBefore = now - 1 week`, `NotAfter = now + 2 weeks` and organization
"Lantern Network"; when the node has no own certificate loaded (a root
node generating its first cert, which it then self-signs) the certificate
additionally carries the IP SAN 127.0.0.1, and certificates issued while
an issuer certificate is present carry no IP SAN. -/
theorem certificateForPublicKey_fields (st : KeysState) (ps : List Nat)
    (nowNs serialNanos : Int) (email : GoStr) (pubN pubE : Nat)
    (hlen : email.length + 11 ≤ byteLen st.key.n) :
    ∃ c, certificateForPublicKey st ps nowNs serialNanos email pubN pubE = .ok c ∧
      c.notBefore = nowNs - ONE_WEEK ∧
      c.notAfter = nowNs + TWO_WEEKS ∧
      c.organization = [goStr "Lantern Network"] ∧
      (st.certificate = none → c.ipAddresses = [goStr "127.0.0.1"]) ∧
      (st.certificate ≠ none → c.ipAddresses = []) := by
  have henc : Encrypt st.key ps email = .ok (b64encode (natToBytes (byteLen st.key.n)
      (powMod (bytesToNat (0 :: 2 :: (ps ++ 0 :: email))) st.key.e st.key.n))) := by
    rw [Encrypt, encryptPKCS1v15, if_neg (by omega)]
  rw [certificateForPublicKey, henc]
  refine ⟨_, rfl, rfl, rfl, rfl, ?_, ?_⟩
  · intro h
    simp [h]
  · intro h
    have : st.certificate.isNone = false := by
      cases hoc : st.certificate with
      | none => exact absurd hoc h
      | some _ => rfl
    simp [this]

/-- Witness for C6: a root-node state (no certificate loaded) issuing for
a concrete email under the concrete key `testKey`. -/
theorem certificateForPublicKey_fields_witness :
    ∃ c, certificateForPublicKey ⟨testKey, none⟩ (List.replicate 8 1)
        1700000000000000000 123456789 (goStr "a@b.c") 3233 17 = .ok c ∧
      c.notBefore = 1700000000000000000 - ONE_WEEK ∧
      c.notAfter = 1700000000000000000 + TWO_WEEKS ∧
      c.organization = [goStr "Lantern Network"] ∧
      ((⟨testKey, none⟩ : KeysState).certificate = none → c.ipAddresses = [goStr "127.0.0.1"]) ∧
      ((⟨testKey, none⟩ : KeysState).certificate ≠ none → c.ipAddresses = []) :=
  certificateForPublicKey_fields ⟨testKey, none⟩ (List.replicate 8 1)
    1700000000000000000 123456789 (goStr "a@b.c") 3233 17 (by decide)

/-- **C1.** For every certificate generated via the cert-issuance path —
`genCert` handling a POST to `/mycert` whose assertion the verifier
approved with email `e` (`hok`, `hvr`) — the certificate's subject Common
Name equals the base64 encoding of the RSA PKCS#1 v1.5 encryption of `e`
under the issuing node's own public key (`Encrypt st.key`), and hence the
issuer's `Decrypt` applied to that CN returns `e`.  The key-validity and
padding hypotheses are as in the round-trip theorem. -/
theorem genCert_cn_decrypts_to_email
    (st : KeysState) (ps : List Nat) (nowNs serialNanos : Int)
    (req : CertRequest) (pr : Persona.PersonaResponse) (childN childE : Nat)
    (hhdr : req.identityHeader ≠ [])
    (hvr : req.verifierResult = .ok pr)
    (_hok : pr.status = goStr "okay")
    (hbody : req.body = .ok (.rsa childN childE))
    (hemail : ByteOk pr.email) (hps : ByteOk ps) (hpsnz : ∀ b ∈ ps, b ≠ 0)
    (hlen : pr.email.length + 11 ≤ byteLen st.key.n)
    (hpslen : ps.length = byteLen st.key.n - pr.email.length - 3)
    (hlow : 256 ^ (byteLen st.key.n - 1) ≤ st.key.n)
    (hhigh : st.key.n < 256 ^ byteLen st.key.n)
    (hed : powMod (bytesToNat (0 :: 2 :: (ps ++ 0 :: pr.email)))
        (st.key.e * st.key.d) st.key.n
      = bytesToNat (0 :: 2 :: (ps ++ 0 :: pr.email))) :
    ∃ cert ct,
      Encrypt st.key ps pr.email = .ok ct ∧
      genCert st ps nowNs serialNanos req =
        { status := 200, contentType := some (goStr "application/octet-stream"),
          body := [.cert cert] } ∧
      cert.commonName = ct ∧
      Decrypt st.key ct = .ok pr.email := by
  obtain ⟨ct, henc, hdec⟩ :=
    Encrypt_Decrypt_ok st.key ps pr.email hemail hps hpsnz hlen hpslen hlow hhigh hed
  refine ⟨{ serialNumber := serialNanos
            organization := [goStr "Lantern Network"]
            commonName := ct
            notBefore := nowNs - ONE_WEEK
            notAfter := nowNs + TWO_WEEKS
            keyUsageKeyEncipherment := true
            keyUsageDigitalSignature := true
            keyUsageCertSign := true
            extKeyUsageServerAuth := true
            basicConstraintsValid := true
            isCA := true
            ipAddresses := if st.certificate.isNone then [goStr "127.0.0.1"] else []
            pubN := childN
            pubE := childE }, ct, henc, ?_, rfl, hdec⟩
  rw [genCert, if_neg hhdr]
  simp only [Persona.ValidateAssertion, hvr, hbody, certificateForBytes,
    certificateForPublicKey, henc]

set_option maxRecDepth 400000 in
/-- Witness for C1: a concrete request whose assertion the verifier
approved with email "a@b.c", handled by a root-node state holding
`testKey`. -/
theorem genCert_cn_decrypts_to_email_witness :
    ∃ cert ct,
      Encrypt testKey (List.replicate 8 1) approvedPr.email = .ok ct ∧
      genCert ⟨testKey, none⟩ (List.replicate 8 1) 1700000000000000000 123456789
        approvedReq =
        { status := 200, contentType := some (goStr "application/octet-stream"),
          body := [.cert cert] } ∧
      cert.commonName = ct ∧
      Decrypt testKey ct = .ok approvedPr.email :=
  genCert_cn_decrypts_to_email ⟨testKey, none⟩ (List.replicate 8 1)
    1700000000000000000 123456789 approvedReq approvedPr 3233 17
    (by decide) rfl (by decide) rfl
    (by decide) (by decide) (by decide) (by decide) (by decide) (by decide)
    (by decide) (by decide)

end Keys


namespace Keys

/-- **C7 counterexample.** The claim states that a failed assertion
validation produces status 400.  `persona.ValidateAssertion` (the
one-argument function `certgen.go` calls) never checks the verifier's
`Status` field, so a verdict the verifier REJECTED (status "failure",
not "okay") is not reported as an error: at this concrete request the
handler continues and answers 200 with a freshly issued certificate
instead of 400. -/
theorem genCert_nonokay_status_not_rejected :
    deniedPr.status ≠ goStr "okay" ∧
    deniedReq.verifierResult = .ok deniedPr ∧
    (genCert ⟨encOnlyKey, none⟩ (List.replicate 8 1) 0 0 deniedReq).status = 200 := by
  refine ⟨by decide, rfl, by decide⟩

/-- **C7 (amended).** For every POST to `/mycert`: a missing
`X-Lantern-Identity` header, an assertion-validation failure of the
verifier round trip itself (transport, body-read or JSON-parse error —
but NOT a verifier verdict with non-"okay" status, which the handler does
not detect), and a body read error each produce status 400; a
certificate-construction failure produces status 500 with no certificate
bytes written; otherwise the response is status 200 with Content-Type
`application/octet-stream` and body equal to the DER certificate bytes. -/
theorem genCert_status_codes (st : KeysState) (ps : List Nat) (nowNs serialNanos : Int) :
    (∀ req : CertRequest, req.identityHeader = [] →
      (genCert st ps nowNs serialNanos req).status = 400) ∧
    (∀ (req : CertRequest) (err : GoStr), req.identityHeader ≠ [] →
      req.verifierResult = .error err →
      (genCert st ps nowNs serialNanos req).status = 400) ∧
    (∀ (req : CertRequest) (pr : Persona.PersonaResponse) (err : GoStr),
      req.identityHeader ≠ [] → req.verifierResult = .ok pr → req.body = .error err →
      (genCert st ps nowNs serialNanos req).status = 400) ∧
    (∀ (req : CertRequest) (pr : Persona.PersonaResponse) (pk : ParsedKey) (err : GoStr),
      req.identityHeader ≠ [] → req.verifierResult = .ok pr → req.body = .ok pk →
      certificateForBytes st ps nowNs serialNanos pr.email pk = .error err →
      (genCert st ps nowNs serialNanos req).status = 500 ∧
      ∀ ch ∈ (genCert st ps nowNs serialNanos req).body, ∀ c, ch ≠ .cert c) ∧
    (∀ (req : CertRequest) (pr : Persona.PersonaResponse) (pk : ParsedKey) (c : LanternCert),
      req.identityHeader ≠ [] → req.verifierResult = .ok pr → req.body = .ok pk →
      certificateForBytes st ps nowNs serialNanos pr.email pk = .ok c →
      genCert st ps nowNs serialNanos req =
        { status := 200, contentType := some (goStr "application/octet-stream")
          body := [.cert c] }) := by
  refine ⟨?_, ?_, ?_, ?_, ?_⟩
  · intro req h
    simp [genCert, h]
  · intro req err hh hv
    simp [genCert, hh, Persona.ValidateAssertion, hv]
  · intro req pr err hh hv hb
    simp [genCert, hh, Persona.ValidateAssertion, hv, hb]
  · intro req pr pk err hh hv hb hc
    refine ⟨?_, ?_⟩
    · simp [genCert, hh, Persona.ValidateAssertion, hv, hb, hc]
    · intro ch hch c
      simp only [genCert, if_neg hh, Persona.ValidateAssertion, hv, hb, hc] at hch
      simp only [List.mem_singleton] at hch
      subst hch
      intro hcontra
      cases hcontra
  · intro req pr pk c hh hv hb hc
    simp [genCert, hh, Persona.ValidateAssertion, hv, hb, hc]

/-- Witness for the amended C7: the missing-header branch and the
cert-construction-failure branch, both at concrete requests. -/
theorem genCert_status_codes_witness :
    (genCert ⟨encOnlyKey, none⟩ (List.replicate 8 1) 0 0
      { identityHeader := [], verifierResult := .ok approvedPr
        body := .ok (.rsa 3233 17) }).status = 400 ∧
    ((genCert ⟨encOnlyKey, none⟩ (List.replicate 8 1) 0 0 tooLongReq).status = 500 ∧
      ∀ ch ∈ (genCert ⟨encOnlyKey, none⟩ (List.replicate 8 1) 0 0 tooLongReq).body,
        ∀ c, ch ≠ .cert c) :=
  ⟨(genCert_status_codes ⟨encOnlyKey, none⟩ (List.replicate 8 1) 0 0).1 _ rfl,
   (genCert_status_codes ⟨encOnlyKey, none⟩ (List.replicate 8 1) 0 0).2.2.2.1
     tooLongReq tooLongPr (.rsa 3233 17)
     (goStr "crypto/rsa: message too long for RSA public key size")
     (by decide) rfl rfl (by decide)⟩

end Keys

namespace Proxy

/-- **C9.** For every request handled by the remote proxy, the computed
destination host equals `req.Host` unchanged when the host already carries
a port, equals `req.Host ++ ":443"` when the method is CONNECT and the
port is absent, and `req.Host ++ ":80"` when the method is not CONNECT and
the port is absent.  Port presence is the source's own test,
`strings.Contains(host, ":")`. -/
theorem hostIncludingPort_cases (method host : GoStr) :
    (host.contains 58 = true → hostIncludingPort method host = host) ∧
    (host.contains 58 = false → method = goStr "CONNECT" →
      hostIncludingPort method host = host ++ goStr ":443") ∧
    (host.contains 58 = false → method ≠ goStr "CONNECT" →
      hostIncludingPort method host = host ++ goStr ":80") := by
  refine ⟨?_, ?_, ?_⟩
  · intro h
    rw [hostIncludingPort, if_pos h]
  · intro h hm
    rw [hostIncludingPort, if_neg (by rw [h]; simp), if_pos hm]
  · intro h hm
    rw [hostIncludingPort, if_neg (by rw [h]; simp), if_neg hm]

/-- Witness for C9 at the three concrete shapes. -/
theorem hostIncludingPort_cases_witness :
    hostIncludingPort (goStr "GET") (goStr "example.com:8080") = goStr "example.com:8080" ∧
    hostIncludingPort (goStr "CONNECT") (goStr "example.com")
      = goStr "example.com" ++ goStr ":443" ∧
    hostIncludingPort (goStr "GET") (goStr "example.com") = goStr "example.com" ++ goStr ":80" :=
  ⟨(hostIncludingPort_cases (goStr "GET") (goStr "example.com:8080")).1 (by decide),
   (hostIncludingPort_cases (goStr "CONNECT") (goStr "example.com")).2.1 (by decide) (by decide),
   (hostIncludingPort_cases (goStr "GET") (goStr "example.com")).2.2 (by decide) (by decide)⟩

/-- **C8 counterexample.** The claim states that with an empty
`static_proxy_addresses` list the handler responds 502 Bad Gateway (the
empty-list case handled, not a fault).  The source indexes
`config.StaticProxyAddresses()[0]` unconditionally, so the empty list is
an out-of-range slice index — a runtime panic, with no response written
(no 502) — though indeed no upstream is contacted. -/
theorem handleLocalRequest_empty_not_502 :
    handleLocalRequest [] (fun _ => .ok ()) (.ok ()) =
      ⟨.fault (goStr "runtime error: index out of range"), []⟩ ∧
    localStatus (handleLocalRequest [] (fun _ => .ok ()) (.ok ())).outcome ≠ some 502 := by
  refine ⟨rfl, by decide⟩

/-- **C8 (amended).** For every request handled by the local proxy while
the `static_proxy_addresses` list is empty, the handler faults with an
out-of-range slice index (a runtime panic — net/http aborts the request
with no 502 written) and contacts no upstream. -/
theorem handleLocalRequest_empty_faults (dial : GoStr → Except GoStr Unit)
    (hijack : Except GoStr Unit) :
    handleLocalRequest [] dial hijack =
      ⟨.fault (goStr "runtime error: index out of range"), []⟩ ∧
    (handleLocalRequest [] dial hijack).dialed = [] :=
  ⟨rfl, rfl⟩

end Proxy

namespace Config

/-- **C4 (code-bug evidence).** The claim states the single writer task
dequeues EVERY submitted snapshot and writes it, in submission order.  The
`select` in `saver()` has no enclosing `for` loop, so the goroutine
returns after receiving the first snapshot: of two submitted snapshots
exactly one file write happens, and it is the first snapshot. -/
theorem saver_processes_only_first_snapshot :
    (snapshots defaultConfig
        [.parentAddress (goStr "parent.example.org:16100"), .email (goStr "a@b.c")]).length
      = 2 ∧
    saverWrites (snapshots defaultConfig
        [.parentAddress (goStr "parent.example.org:16100"), .email (goStr "a@b.c")])
      = [applyMutation defaultConfig (.parentAddress (goStr "parent.example.org:16100"))] := by
  refine ⟨rfl, rfl⟩

end Config


namespace Signaling

theorem clientWrite_room (c : ClientConnection) (m : Message)
    (h : c.ch.length < channelBufSize) :
    clientWrite c m = ({ c with ch := c.ch ++ [m] }, false) := by
  rw [clientWrite, if_pos h]

theorem sendPastMessages_no_overflow :
    ∀ (msgs : List Message) (c : ClientConnection),
      c.ch.length + msgs.length ≤ channelBufSize →
      sendPastMessages c msgs = ({ c with ch := c.ch ++ msgs }, []) := by
  intro msgs
  induction msgs with
  | nil =>
    intro c _
    simp [sendPastMessages]
  | cons m ms ih =>
    intro c h
    have hroom : c.ch.length < channelBufSize := by
      simp only [List.length_cons] at h
      omega
    show (m :: ms).foldl _ (c, []) = _
    rw [List.foldl_cons]
    have hw : clientWrite c m = ({ c with ch := c.ch ++ [m] }, false) :=
      clientWrite_room c m hroom
    simp only [hw, Bool.false_eq_true, if_false]
    have := ih { c with ch := c.ch ++ [m] } (by
      simp only [List.length_append, List.length_singleton]
      simp only [List.length_cons] at h
      omega)
    simp only [sendPastMessages] at this
    rw [this]
    simp

theorem putClient_fresh (cs : List ClientConnection) (c : ClientConnection)
    (h : ∀ x ∈ cs, x.id ≠ c.id) : putClient cs c = cs ++ [c] := by
  rw [putClient, if_neg]
  intro hany
  rw [List.any_eq_true] at hany
  obtain ⟨x, hx, hbeq⟩ := hany
  exact h x hx (by simpa using hbeq)

theorem getClient_append_fresh (cs : List ClientConnection) (c : ClientConnection)
    (h : ∀ x ∈ cs, x.id ≠ c.id) : getClient (cs ++ [c]) c.id = some c := by
  induction cs with
  | nil => simp [getClient]
  | cons x cs ih =>
    have hx : x.id ≠ c.id := h x (List.mem_cons_self x cs)
    rw [List.cons_append, getClient, List.find?_cons_of_neg _ (by simpa using hx)]
    exact ih (fun y hy => h y (List.mem_cons_of_mem x hy))

theorem getClient_map (g : ClientConnection → ClientConnection)
    (hg : ∀ x, (g x).id = x.id) (cs : List ClientConnection) (i : Nat) :
    getClient (cs.map g) i = (getClient cs i).map g := by
  induction cs with
  | nil => rfl
  | cons x cs ih =>
    show List.find? (fun y => y.id == i) (g x :: cs.map g)
      = Option.map g (List.find? (fun y => y.id == i) (x :: cs))
    rw [List.find?_cons, List.find?_cons, hg x]
    cases hxib : (x.id == i) with
    | true => rfl
    | false => exact ih

/-- **C2.** In the signaling server's dispatch loop: (a) a broadcast
message arriving on `sendAll` is appended to the replay buffer and pushed
exactly once to every client currently in the registry (each queue gains
exactly the one new message at its tail); (b) a client added afterwards
receives, during its `add` processing, all previously broadcast messages
exactly once and in broadcast order (its queue is then exactly the replay
buffer), before any subsequent broadcast reaches it (a following broadcast
lands after the replayed messages).  The room hypotheses restrict the
statement to clients within the queue capacity, where no full-queue
`Write` submission is attempted and the model coincides exactly with the
loop; the full-queue path is settled separately by C3. -/
theorem broadcast_once_and_replay :
    (∀ (s : ServerState) (m : Message),
      (∀ c ∈ s.clients, c.ch.length < channelBufSize) →
      dispatch s (.sendAll m) =
        { messages := s.messages ++ [m]
          clients := s.clients.map (fun c => { c with ch := c.ch ++ [m] })
          errLog := s.errLog }) ∧
    (∀ (s : ServerState) (c : ClientConnection) (m : Message),
      c.ch = [] →
      (∀ x ∈ s.clients, x.id ≠ c.id) →
      s.messages.length < channelBufSize →
      (∀ x ∈ s.clients, x.ch.length < channelBufSize) →
      getClient (dispatch s (.add c)).clients c.id = some { c with ch := s.messages } ∧
      (dispatch s (.add c)).messages = s.messages ∧
      getClient (dispatch (dispatch s (.add c)) (.sendAll m)).clients c.id =
        some { c with ch := s.messages ++ [m] }) := by
  have partA : ∀ (s : ServerState) (m : Message),
      (∀ c ∈ s.clients, c.ch.length < channelBufSize) →
      dispatch s (.sendAll m) =
        { messages := s.messages ++ [m]
          clients := s.clients.map (fun c => { c with ch := c.ch ++ [m] })
          errLog := s.errLog } := by
    intro s m hroom
    have hmap : s.clients.map (fun c => (clientWrite c m).1)
        = s.clients.map (fun c => { c with ch := c.ch ++ [m] }) := by
      apply List.map_congr_left
      intro c hc
      rw [clientWrite_room c m (hroom c hc)]
    have hfilter : s.clients.filter (fun c => (clientWrite c m).2) = [] := by
      rw [List.filter_eq_nil_iff]
      intro c hc
      rw [clientWrite_room c m (hroom c hc)]
      simp
    rw [dispatch, step]
    simp only [hmap, hfilter, List.flatMap_nil, List.foldl_nil]
  refine ⟨partA, ?_⟩
  intro s c m hch hfresh hmsgs hroom
  have hreplay : sendPastMessages c s.messages = ({ c with ch := s.messages }, []) := by
    have := sendPastMessages_no_overflow s.messages c (by rw [hch]; simp; omega)
    rw [hch] at this
    simpa using this
  have hadd : dispatch s (.add c) =
      { s with clients := s.clients ++ [{ c with ch := s.messages }] } := by
    rw [dispatch, step]
    simp only [hreplay, List.foldl_nil]
    rw [putClient_fresh _ _ (by intro x hx; exact hfresh x hx)]
  refine ⟨?_, ?_, ?_⟩
  · rw [hadd]
    exact getClient_append_fresh s.clients { c with ch := s.messages } hfresh
  · rw [hadd]
  · have hroom2 : ∀ x ∈ (dispatch s (.add c)).clients, x.ch.length < channelBufSize := by
      rw [hadd]
      intro x hx
      rcases List.mem_append.mp hx with hx2 | hx2
      · exact hroom x hx2
      · rw [List.mem_singleton] at hx2
        subst hx2
        simpa using hmsgs
    rw [partA _ m hroom2]
    simp only
    rw [getClient_map (fun c => { c with ch := c.ch ++ [m] }) (fun x => rfl), hadd]
    simp only
    rw [getClient_append_fresh s.clients { c with ch := s.messages } hfresh]
    rfl

/-- Witness for C2: one registered client and one fresh client joining
after a first broadcast, at concrete messages. -/
theorem broadcast_once_and_replay_witness :
    dispatch
        { messages := [⟨goStr "r@x", 3, goStr "M1"⟩]
          clients := [⟨1, [], ⟨none⟩⟩], errLog := [] }
        (.sendAll ⟨goStr "r@x", 3, goStr "M2"⟩) =
      { messages := [⟨goStr "r@x", 3, goStr "M1"⟩, ⟨goStr "r@x", 3, goStr "M2"⟩]
        clients := [⟨1, [⟨goStr "r@x", 3, goStr "M2"⟩], ⟨none⟩⟩], errLog := [] } ∧
    getClient (dispatch
        { messages := [⟨goStr "r@x", 3, goStr "M1"⟩]
          clients := [⟨1, [], ⟨none⟩⟩], errLog := [] }
        (.add (NewClientConnection 2))).clients 2 =
      some ⟨2, [⟨goStr "r@x", 3, goStr "M1"⟩], ⟨none⟩⟩ := by
  constructor
  · have h := broadcast_once_and_replay.1
      { messages := [⟨goStr "r@x", 3, goStr "M1"⟩]
        clients := [⟨1, [], ⟨none⟩⟩], errLog := [] }
      ⟨goStr "r@x", 3, goStr "M2"⟩ (by decide)
    rw [h]
    rfl
  · have h := (broadcast_once_and_replay.2
      { messages := [⟨goStr "r@x", 3, goStr "M1"⟩]
        clients := [⟨1, [], ⟨none⟩⟩], errLog := [] }
      (NewClientConnection 2) ⟨goStr "r@x", 3, goStr "M2"⟩
      rfl (by decide) (by decide) (by decide)).1
    exact h

/-- **C3 (code-bug evidence).** The claim states the backpressure policy
the `default` branch of `ClientConnection.Write` plainly attempts: on a
full outbound queue, remove the connection (`del`) and emit an error, with
every other client unaffected.  The code cannot execute it: `Write` runs
only on the dispatch goroutine (its call sites `sendPastMessages` and
`sendAll` are inside `Server.Listen`'s loop) and `delCh` is unbuffered
with that goroutine as sole receiver, so `c.server.Del(c)` blocks forever
— no removal, no error, and the loop wedges.  Evaluated at the failing
input: a push to a connection whose queue holds 100 messages deadlocks,
while the same push to a client with room simply enqueues. -/
theorem queue_full_push_deadlocks :
    loopWrite ⟨1, List.replicate 100 ⟨goStr "r@x", 3, goStr "M"⟩, ⟨none⟩⟩
        ⟨goStr "r@x", 3, goStr "M2"⟩ = .deadlock ∧
    loopWrite ⟨2, [], ⟨none⟩⟩ ⟨goStr "r@x", 3, goStr "M2"⟩ =
      .done ⟨2, [⟨goStr "r@x", 3, goStr "M2"⟩], ⟨none⟩⟩ := by
  refine ⟨by decide, by decide⟩


/-- **C10.** Every `ClientConnection` constructed by `NewClientConnection`
has an uninitialized (nil-map) subscription set — the `emails` field is
never assigned.  Consequently, processing its first REGISTRATION message
performs `StringSet.Add`, an insertion into a nil map, which is a Go
runtime fault; under this construction the subscription-set insertion for
REGISTRATION never succeeds. -/
theorem registration_on_fresh_connection_faults :
    (∀ id : Nat, (NewClientConnection id).emails = ⟨none⟩) ∧
    (∀ (id : Nat) (msg : Message), msg.T = TYPE_REGISTRATION →
      processInbound (NewClientConnection id) msg = .error .nilMapAssign) := by
  refine ⟨fun _ => rfl, ?_⟩
  intro i msg h
  rw [processInbound, if_pos h]
  rfl

/-- Witness for C10: the fresh connection with id 7 handling a concrete
REGISTRATION message. -/
theorem registration_on_fresh_connection_faults_witness :
    (NewClientConnection 7).emails = ⟨none⟩ ∧
    processInbound (NewClientConnection 7) ⟨goStr "a@b.c", 1, goStr "a@b.c"⟩
      = .error .nilMapAssign :=
  ⟨registration_on_fresh_connection_faults.1 7,
   registration_on_fresh_connection_faults.2 7 ⟨goStr "a@b.c", 1, goStr "a@b.c"⟩ rfl⟩

end Signaling

end Lantern
